import Mathlib

/-!
# Verification of the WhatsApp link generator record store

Shallow embedding of the record-store logic of the page component in
src/src/app/page.tsx: the useEffect load/reconcile pass and the
handleConvert submit handler.

Browser storage under the single key "whatsAppLinkHistory" is modelled as
one slot of type `Stored`, with JSON serialization abstracted at the parsed
level: a stored value is either absent (localStorage.getItem returned null,
or a falsy empty string, so the `if (storedData)` guard skips the block),
malformed (JSON.parse or the subsequent filter throws, landing in the catch
branch), or the well-formed serialization of a list of records.  Date.now()
and Math.random() are injected as parameters (`now`, and `rand k` for the
k-th Math.random() call of a batch).  Timestamps are integer milliseconds;
ids are rationals, since `currentTime + Math.random()` is fractional.
-/

/-- interface WhatsAppRecord (page.tsx lines 7-12): id, original, link,
timestamp. -/
structure WhatsAppRecord where
  id : Rat
  original : String
  link : String
  timestamp : Int
deriving DecidableEq

/-- const EXPIRATION_TIME_MS = 24 * 60 * 60 * 1000 (page.tsx line 15),
24 hours in milliseconds. -/
def EXPIRATION_TIME_MS : Int := 24 * 60 * 60 * 1000

/-- const LOCAL_STORAGE_KEY = 'whatsAppLinkHistory' (page.tsx line 14).
The store has this single key; `Stored` below is the state of its slot. -/
def LOCAL_STORAGE_KEY : String := "whatsAppLinkHistory"

/-- The state of the localStorage slot under LOCAL_STORAGE_KEY, with the
host JSON codec abstracted: `absent` when getItem returns null (or the
stored string is falsy), `malformed` when parsing the stored string throws,
`wellFormed rs` when it parses to the record list `rs`. -/
inductive Stored where
  | absent : Stored
  | malformed : Stored
  | wellFormed : List WhatsAppRecord → Stored
deriving DecidableEq

/-- The component state: useState inputNumbers, useState records, plus the
storage slot the component reads and writes. -/
structure AppState where
  inputNumbers : String
  records : List WhatsAppRecord
  storage : Stored
deriving DecidableEq

/-- The state at mount: useState('') and useState([]) (page.tsx lines
18-19), with storage as found. -/
def initialState (st : Stored) : AppState := AppState.mk "" [] st

/-- The useEffect load/reconcile pass (page.tsx lines 22-42): when the
stored value is truthy, parse it, keep the records with
currentTime - record.timestamp < EXPIRATION_TIME_MS, set them as the
in-memory records and write them back; when it is absent do nothing; when
parsing throws, the catch branch removes the key (records are not
touched). -/
def loadReconcile (now : Int) (st : AppState) : AppState :=
  match st.storage with
  | Stored.absent => st
  | Stored.malformed => AppState.mk st.inputNumbers st.records Stored.absent
  | Stored.wellFormed parsedRecords =>
      AppState.mk st.inputNumbers
        (parsedRecords.filter (fun r => decide (now - r.timestamp < EXPIRATION_TIME_MS)))
        (Stored.wellFormed
          (parsedRecords.filter (fun r => decide (now - r.timestamp < EXPIRATION_TIME_MS))))

/-- JS whitespace for String.prototype.trim, restricted to the ASCII
characters (non-ASCII whitespace such as NBSP is not modelled). -/
def isSpaceChar (c : Char) : Bool :=
  c == ' ' || c == '\t' || c == '\n' || c == '\r' || c == '\x0B' || c == '\x0C'

/-- line.trim() (page.tsx lines 46 and 52): drop whitespace from both
ends. -/
def jsTrim (s : String) : String :=
  String.mk (((s.data.dropWhile isSpaceChar).reverse.dropWhile isSpaceChar).reverse)

/-- Helper for inputNumbers.split('\n'): split a character list at every
newline; the separators are consumed and empty pieces are kept, so the
result on an empty input is [[]], as in JS. -/
def splitNl : List Char → List (List Char)
  | [] => [[]]
  | c :: cs =>
      if c == '\n' then [] :: splitNl cs
      else
        match splitNl cs with
        | [] => [[c]]
        | piece :: rest => (c :: piece) :: rest

/-- inputNumbers.split('\n') (page.tsx line 48). -/
def splitLines (s : String) : List String :=
  (splitNl s.data).map String.mk

/-- originalNumber.replace(/[^\d+]/g, '') (page.tsx line 56): delete every
character that is not an ASCII digit or a plus sign.  Note the regex keeps
every plus sign wherever it occurs, not only a leading one. -/
def sanitize (s : String) : String :=
  String.mk (s.data.filter (fun c => c.isDigit || c == '+'))

/-- The fixed link base of the template literal on page.tsx line 60. -/
def WA_ME_BASE : String := "https://wa.me/"

/-- One new record (page.tsx lines 57-62): `r` is the value the
Math.random() call returned for this record. -/
def mkRecord (now : Int) (r : Rat) (originalNumber : String) : WhatsAppRecord :=
  WhatsAppRecord.mk ((now : Rat) + r) originalNumber
    (WA_ME_BASE ++ sanitize originalNumber) now

/-- The batch map of page.tsx lines 54-63: one record per remaining line,
with Math.random() drawn once per record in order (`k` counts the calls). -/
def mkRecords (now : Int) (rand : Nat → Rat) : Nat → List String → List WhatsAppRecord
  | _, [] => []
  | k, l :: ls => mkRecord now (rand k) l :: mkRecords now rand (k + 1) ls

/-- lines.map(line => line.trim()).filter(line => line.length > 0)
(page.tsx lines 51-53), applied to inputNumbers.split('\n'). -/
def nonBlankLines (s : String) : List String :=
  ((splitLines s).map jsTrim).filter (fun l => decide (0 < l.length))

/-- handleConvert (page.tsx lines 45-75): return unchanged when the trimmed
input is empty; otherwise build the batch, prepend it to the existing
records, persist the combined list, and clear the input field. -/
def handleConvert (now : Int) (rand : Nat → Rat) (st : AppState) : AppState :=
  if jsTrim st.inputNumbers = "" then st
  else
    AppState.mk ""
      (mkRecords now rand 0 (nonBlankLines st.inputNumbers) ++ st.records)
      (Stored.wellFormed
        (mkRecords now rand 0 (nonBlankLines st.inputNumbers) ++ st.records))

/-- The collection a storage state represents to the next load: an absent
key loads as the empty collection; a malformed value represents no
collection at all. -/
def persistedCollection : Stored → Option (List WhatsAppRecord)
  | Stored.absent => some []
  | Stored.malformed => none
  | Stored.wellFormed rs => some rs

/-- Modelled from the spec: the sanitization the spec describes, which the
code does not implement with this meaning — "strip every character except
ASCII digits and a leading `+`": keep a plus sign only when it is the
leading character, then the digits. -/
def specSanitize (s : String) : String :=
  (if s.data.head? == some '+' then "+" else "") ++ String.mk (s.data.filter Char.isDigit)

/-- The shape the claim ascribes to sanitized numbers: ASCII digits plus at
most one optional leading plus sign. -/
def digitsWithOptLeadingPlus (s : String) : Bool :=
  match s.data with
  | [] => true
  | c :: cs => (c.isDigit || c == '+') && cs.all Char.isDigit

/-! ## Helper lemmas -/

theorem count_filter_ite {α : Type} [DecidableEq α] (p : α → Bool) (a : α) (l : List α) :
    (l.filter p).count a = if p a then l.count a else 0 := by
  by_cases h : p a = true
  · rw [if_pos h, List.count_filter h]
  · rw [if_neg h]
    exact List.count_eq_zero.mpr (fun hm => h (List.mem_filter.mp hm).2)

theorem mkRecords_length (now : Int) (rand : Nat → Rat) :
    ∀ (k : Nat) (ls : List String), (mkRecords now rand k ls).length = ls.length := by
  intro k ls
  induction ls generalizing k with
  | nil => rfl
  | cons l ls ih => simp [mkRecords, ih]

theorem mkRecords_map_original (now : Int) (rand : Nat → Rat) :
    ∀ (k : Nat) (ls : List String),
      (mkRecords now rand k ls).map (fun r => r.original) = ls := by
  intro k ls
  induction ls generalizing k with
  | nil => rfl
  | cons l ls ih => simp [mkRecords, mkRecord, ih]

theorem mkRecords_link (now : Int) (rand : Nat → Rat) :
    ∀ (k : Nat) (ls : List String),
      ∀ r ∈ mkRecords now rand k ls, r.link = WA_ME_BASE ++ sanitize r.original := by
  intro k ls
  induction ls generalizing k with
  | nil => intro r hr; cases hr
  | cons l ls ih =>
      intro r hr
      cases hr with
      | head => rfl
      | tail _ hr => exact ih _ r hr

/-! ## Claims -/

/-- C1: for every valid stored collection loaded at startup, the
load/reconcile pass keeps the records in their relative order (a sublist of
the parsed list), afterwards every in-memory record is younger than the 24h
TTL, and the multiplicity of each record is preserved exactly when its age
now - timestamp is < 86400000 ms and is zero (the record is removed)
otherwise. -/
theorem loadReconcile_wellFormed_spec (now : Int) (rs : List WhatsAppRecord) :
    (loadReconcile now (initialState (Stored.wellFormed rs))).records.Sublist rs ∧
    (∀ r ∈ (loadReconcile now (initialState (Stored.wellFormed rs))).records,
        now - r.timestamp < EXPIRATION_TIME_MS) ∧
    (∀ r : WhatsAppRecord,
        (loadReconcile now (initialState (Stored.wellFormed rs))).records.count r
          = if now - r.timestamp < EXPIRATION_TIME_MS then rs.count r else 0) := by
  have hrec : (loadReconcile now (initialState (Stored.wellFormed rs))).records
      = rs.filter (fun r => decide (now - r.timestamp < EXPIRATION_TIME_MS)) := rfl
  refine ⟨?_, ?_, ?_⟩
  · rw [hrec]; exact List.filter_sublist rs
  · intro r hr
    rw [hrec] at hr
    have := (List.mem_filter.mp hr).2
    simpa using this
  · intro r
    rw [hrec, count_filter_ite]
    simp

/-- C2 counterexample: on a malformed stored value the load pass leaves the
in-memory collection empty but does not overwrite storage with an empty
collection: it removes the stored value, so the slot ends absent, not
holding the serialization of the empty list. -/
theorem loadReconcile_malformed_counterexample :
    (loadReconcile 0 (initialState Stored.malformed)).records = [] ∧
    (loadReconcile 0 (initialState Stored.malformed)).storage = Stored.absent ∧
    (loadReconcile 0 (initialState Stored.malformed)).storage
      ≠ Stored.wellFormed [] := by
  refine ⟨rfl, rfl, ?_⟩
  decide

/-- C2 (amended): for every malformed stored value the load pass yields an
empty in-memory collection and removes the stored value entirely (the slot
becomes absent), without crashing. -/
theorem loadReconcile_malformed_spec (now : Int) :
    (loadReconcile now (initialState Stored.malformed)).records = [] ∧
    (loadReconcile now (initialState Stored.malformed)).storage = Stored.absent ∧
    loadReconcile now (initialState Stored.malformed) = initialState Stored.absent :=
  ⟨rfl, rfl, rfl⟩

/-- C3 counterexample: sanitization does not keep only a leading plus sign;
on "1+2" the inner plus survives, so the result is not of the form digits
with an optional leading plus, and it differs from what the claim's
description (specSanitize) produces. -/
theorem sanitize_inner_plus_counterexample :
    sanitize "1+2" = "1+2" ∧
    digitsWithOptLeadingPlus (sanitize "1+2") = false ∧
    sanitize "1+2" ≠ specSanitize "1+2" := by
  refine ⟨rfl, rfl, ?_⟩
  decide

/-- C3 (amended): the sanitized number keeps exactly the ASCII digits and
every plus sign of the input, wherever the plus signs occur, in order (a
subsequence of the input made of exactly its digit and plus characters),
and each record's derived link is the fixed base "https://wa.me/"
concatenated with the sanitized number. -/
theorem sanitize_and_link_spec (s : String) (now : Int) (r : Rat) (c : Char) :
    (sanitize s).data.Sublist s.data ∧
    (∀ d ∈ (sanitize s).data, d.isDigit = true ∨ d = '+') ∧
    ((sanitize s).data.count c
      = if c.isDigit || c == '+' then s.data.count c else 0) ∧
    (mkRecord now r s).link = WA_ME_BASE ++ sanitize s := by
  have hdata : (sanitize s).data = s.data.filter (fun c => c.isDigit || c == '+') := rfl
  refine ⟨?_, ?_, ?_, rfl⟩
  · rw [hdata]; exact List.filter_sublist s.data
  · intro d hd
    rw [hdata] at hd
    have := (List.mem_filter.mp hd).2
    simpa [Bool.or_eq_true] using this
  · rw [hdata, count_filter_ite]

/-- C4: for every submitted text whose trimmed content is non-blank, submit
produces exactly one new record per non-blank trimmed line: the count of
new records equals the count of non-blank trimmed lines, the new records'
originals are exactly those lines in order, each new record's link is the
base concatenated with its sanitized original, and a line sanitizing to the
empty string still yields a record whose link is the bare base. -/
theorem handleConvert_one_record_per_line (now : Int) (rand : Nat → Rat)
    (st : AppState) (h : jsTrim st.inputNumbers ≠ "") :
    (handleConvert now rand st).records.length
      = (nonBlankLines st.inputNumbers).length + st.records.length ∧
    ((handleConvert now rand st).records.take
        (nonBlankLines st.inputNumbers).length).map (fun r => r.original)
      = nonBlankLines st.inputNumbers ∧
    (∀ r ∈ (handleConvert now rand st).records.take
        (nonBlankLines st.inputNumbers).length,
      r.link = WA_ME_BASE ++ sanitize r.original) ∧
    (∀ r ∈ (handleConvert now rand st).records.take
        (nonBlankLines st.inputNumbers).length,
      sanitize r.original = "" → r.link = WA_ME_BASE) := by
  have hrec : (handleConvert now rand st).records
      = mkRecords now rand 0 (nonBlankLines st.inputNumbers) ++ st.records := by
    simp [handleConvert, h]
  have htake : (handleConvert now rand st).records.take
      (nonBlankLines st.inputNumbers).length
      = mkRecords now rand 0 (nonBlankLines st.inputNumbers) := by
    rw [hrec]
    exact List.take_left' (mkRecords_length now rand 0 (nonBlankLines st.inputNumbers))
  refine ⟨?_, ?_, ?_, ?_⟩
  · rw [hrec]
    simp [mkRecords_length]
  · rw [htake]
    exact mkRecords_map_original now rand 0 (nonBlankLines st.inputNumbers)
  · rw [htake]
    exact mkRecords_link now rand 0 (nonBlankLines st.inputNumbers)
  · rw [htake]
    intro r hr hs
    have := mkRecords_link now rand 0 (nonBlankLines st.inputNumbers) r hr
    rw [this, hs]
    rfl

/-- C4 witness: submitting "1\n\n 2 " (two non-blank lines) over an empty
collection yields exactly two records. -/
theorem handleConvert_one_record_per_line_witness :
    (handleConvert 5 (fun _ => 0) (AppState.mk "1\n\n 2 " [] Stored.absent)).records.length
      = (nonBlankLines (AppState.mk "1\n\n 2 " [] Stored.absent).inputNumbers).length
        + (AppState.mk "1\n\n 2 " [] Stored.absent).records.length :=
  (handleConvert_one_record_per_line 5 (fun _ => 0)
    (AppState.mk "1\n\n 2 " [] Stored.absent) (by decide)).1

/-- C5: for every non-blank submission, the new batch is prepended (the
first records of the result are the batch, the remaining ones are the prior
records in their prior order), the combined collection is both the new
in-memory state and the newly persisted state, and the input field is
cleared. -/
theorem handleConvert_prepend_persist_clear (now : Int) (rand : Nat → Rat)
    (st : AppState) (h : jsTrim st.inputNumbers ≠ "") :
    (handleConvert now rand st).records.take (nonBlankLines st.inputNumbers).length
      = mkRecords now rand 0 (nonBlankLines st.inputNumbers) ∧
    (handleConvert now rand st).records.drop (nonBlankLines st.inputNumbers).length
      = st.records ∧
    (handleConvert now rand st).storage
      = Stored.wellFormed (handleConvert now rand st).records ∧
    (handleConvert now rand st).inputNumbers = "" := by
  have hrec : handleConvert now rand st
      = AppState.mk ""
          (mkRecords now rand 0 (nonBlankLines st.inputNumbers) ++ st.records)
          (Stored.wellFormed
            (mkRecords now rand 0 (nonBlankLines st.inputNumbers) ++ st.records)) := by
    simp [handleConvert, h]
  refine ⟨?_, ?_, ?_, ?_⟩
  · rw [hrec]
    exact List.take_left' (mkRecords_length now rand 0 (nonBlankLines st.inputNumbers))
  · rw [hrec]
    exact List.drop_left' (mkRecords_length now rand 0 (nonBlankLines st.inputNumbers))
  · rw [hrec]
  · rw [hrec]

/-- C5 witness: submitting "12" over an empty collection clears the input
field. -/
theorem handleConvert_prepend_persist_clear_witness :
    (handleConvert 5 (fun _ => 0) (AppState.mk "12" [] Stored.absent)).inputNumbers = "" :=
  (handleConvert_prepend_persist_clear 5 (fun _ => 0)
    (AppState.mk "12" [] Stored.absent) (by decide)).2.2.2

/-- C6: after the load/reconcile pass the persisted slot represents exactly
the in-memory collection, and a submit preserves that agreement: whenever
the slot represents the in-memory records before handleConvert, it still
does afterwards (an absent slot represents the empty collection). -/
theorem store_memory_agreement :
    (∀ (now : Int) (st0 : Stored),
        persistedCollection (loadReconcile now (initialState st0)).storage
          = some (loadReconcile now (initialState st0)).records) ∧
    (∀ (now : Int) (rand : Nat → Rat) (st : AppState),
        persistedCollection st.storage = some st.records →
        persistedCollection (handleConvert now rand st).storage
          = some (handleConvert now rand st).records) := by
  constructor
  · intro now st0
    cases st0 <;> simp [loadReconcile, initialState, persistedCollection]
  · intro now rand st hinv
    by_cases hg : jsTrim st.inputNumbers = ""
    · simpa [handleConvert, hg] using hinv
    · simp [handleConvert, hg, persistedCollection]

/-- C7: submitting input whose trimmed content is empty is a no-op: the
whole state (records, storage and input field) is returned unchanged. -/
theorem handleConvert_blank_noop (now : Int) (rand : Nat → Rat)
    (st : AppState) (h : jsTrim st.inputNumbers = "") :
    handleConvert now rand st = st := by
  simp [handleConvert, h]

/-- C7 witness: submitting "   " (whitespace only) leaves the state
unchanged. -/
theorem handleConvert_blank_noop_witness :
    handleConvert 7 (fun _ => 0)
        (AppState.mk "   " [WhatsAppRecord.mk 1 "5" "https://wa.me/5" 0] Stored.absent)
      = AppState.mk "   " [WhatsAppRecord.mk 1 "5" "https://wa.me/5" 0] Stored.absent :=
  handleConvert_blank_noop 7 (fun _ => 0)
    (AppState.mk "   " [WhatsAppRecord.mk 1 "5" "https://wa.me/5" 0] Stored.absent) rfl

/-- C8: the code's id scheme currentTime + Math.random() does not guarantee
uniqueness, although the code's own comments call it a unique id: if the
two Math.random() calls of one batch return the same value (here 1/2), the
two records of the batch get equal ids, so the store's ids are not
pairwise distinct. -/
theorem handleConvert_id_collision :
    (handleConvert 1000 (fun _ => (1 : Rat)/2)
        (AppState.mk "1\n2" [] Stored.absent)).records.map (fun r => r.id)
      = [((1000 : Int) : Rat) + (1 : Rat)/2, ((1000 : Int) : Rat) + (1 : Rat)/2] ∧
    ¬ ((handleConvert 1000 (fun _ => (1 : Rat)/2)
        (AppState.mk "1\n2" [] Stored.absent)).records.map (fun r => r.id)).Nodup := by
  have hids : (handleConvert 1000 (fun _ => (1 : Rat)/2)
      (AppState.mk "1\n2" [] Stored.absent)).records.map (fun r => r.id)
      = [((1000 : Int) : Rat) + (1 : Rat)/2, ((1000 : Int) : Rat) + (1 : Rat)/2] := rfl
  refine ⟨hids, ?_⟩
  rw [hids]
  simp

/-- C9: sanitization is idempotent: applying it twice yields the same
result as applying it once. -/
theorem sanitize_idempotent (s : String) : sanitize (sanitize s) = sanitize s := by
  have h : (s.data.filter (fun c => c.isDigit || c == '+')).filter
        (fun c => c.isDigit || c == '+')
      = s.data.filter (fun c => c.isDigit || c == '+') :=
    List.filter_eq_self.mpr (fun a ha => (List.mem_filter.mp ha).2)
  exact congrArg String.mk h

/-- C10: when the storage key is absent at load time, the load pass writes
nothing (the slot stays absent, it is not initialized to an empty
collection) and the in-memory collection is empty. -/
theorem loadReconcile_absent_noop (now : Int) :
    (loadReconcile now (initialState Stored.absent)).storage = Stored.absent ∧
    (loadReconcile now (initialState Stored.absent)).records = [] ∧
    loadReconcile now (initialState Stored.absent) = initialState Stored.absent :=
  ⟨rfl, rfl, rfl⟩
